import Mathlib

/-!
# Bifrost gateway — verification of the core trackers and forwarding paths

Shallow embedding of the bifrost gateway's core subsystems:

* `SlotEvent`, `SlotsTracker` and its estimator (`src/tpu_client/tracker/slots_tracker.rs`),
* `ScheduleTracker` and `maybe_rotate` (`src/tpu_client/tracker/schedule_tracking.rs`),
* `LeaderTracker.get_future_leaders` (`src/tpu_client/tracker/leader_tracker.rs`),
* the TPU connection pool (`src/tpu_client/manager.rs`),
* the per-stream session handler (`src/server/session.rs`).

Machine integers (`u64` slots, `usize` indices) are modelled as `Nat` with
explicit `% 2^64` where the source performs unchecked `u64` additions (the
estimator's `expected` and cap computations, which wrap in the release
profile; a debug build would panic at the same additions, and the claims
below treat either behaviour as the estimator failing) and
`min (· + 1) (2^64 - 1)` for `u64::saturating_add(1)`.  HashMaps are
modelled as association lists queried with `List.lookup` (matching
`HashMap::get`), and fallible RPC / network actions are oracles returning
`Except` values.
-/

namespace Bifrost

/-- `2^64`: `u64` arithmetic wraps at this modulus (release profile),
`u64::saturating_add` saturates at `2^64 - 1`, and `u64::checked_add`
returns `None` from this value on. -/
def U64_SIZE : Nat := 2 ^ 64

/-- `SlotEvent` from `slots_tracker.rs`: slot start and end events. -/
inductive SlotEvent : Type where
  | Start : Nat → SlotEvent
  | End : Nat → SlotEvent
  deriving DecidableEq, Repr, Inhabited

/-- `SlotEvent::slot`: the slot associated with the event. -/
def SlotEvent.slot : SlotEvent → Nat
  | .Start s => s
  | .End s => s

/-- `SlotEvent::is_start`. -/
def SlotEvent.is_start : SlotEvent → Bool
  | .Start _ => true
  | .End _ => false

/-- The comparator of `estimate_current_slot`'s sort, as a boolean total
preorder: `a.slot().cmp(&b.slot()).then_with(|| b.is_start().cmp(&a.is_start()))`,
i.e. slot ascending, and within a slot `Start` (true) before `End` (false). -/
def evLe (a b : SlotEvent) : Bool :=
  a.slot < b.slot || (a.slot == b.slot && (!b.is_start || a.is_start))

/-- Stable insertion of an event into a list sorted by `evLe` (ties keep the
existing element after the inserted one exactly when the inserted one came
earlier, matching a stable sort). -/
def insertEv (e : SlotEvent) : List SlotEvent → List SlotEvent
  | [] => [e]
  | x :: xs => if evLe e x then e :: x :: xs else x :: insertEv e xs

/-- Stable sort by `evLe`, modelling Rust's stable `sort_by` with the
comparator of `estimate_current_slot`. -/
def sortEvents : List SlotEvent → List SlotEvent
  | [] => []
  | x :: xs => insertEv x (sortEvents xs)

/-- `Iterator::rposition`: index of the last element satisfying `p`. -/
def rposition (p : α → Bool) : List α → Option Nat
  | [] => none
  | x :: xs =>
    match rposition p xs with
    | some i => some (i + 1)
    | none => if p x then some 0 else none

/-- `MAX_SLOT_SKIP_DISTANCE` from `slots_tracker.rs`. -/
def MAX_SLOT_SKIP_DISTANCE : Nat := 48

/-- `RECENT_LEADER_SLOTS_CAPACITY` from `slots_tracker.rs`. -/
def RECENT_LEADER_SLOTS_CAPACITY : Nat := 48

/-- `SlotsTracker::estimate_current_slot` from `slots_tracker.rs`.  The ring
is copied, sorted by (slot ascending, `Start` before `End`), then
`max_index = len - 1`, `median_index = max_index / 2`, the expected current
slot is `median_slot + (max_index - median_index)` and the cap adds the skip
distance; the last event with slot at most the cap yields the estimate
(`slot` for a `Start`, `slot.saturating_add(1)` for an `End`).  The two
unchecked `u64` additions wrap (`% U64_SIZE`, the release profile; debug
would panic right there on overflow).  `none` models the panic branches of
the source: `len() - 1` underflow on an empty ring and the
`expect("no reasonable slot")` when `rposition` finds nothing — which IS
reachable, e.g. on `[Start (2^64 - 1)]` where the wrapped cap is `47`. -/
def estimate_current_slot (ring : List SlotEvent) : Option Nat :=
  let recent_slots := sortEvents ring
  if recent_slots.length = 0 then none
  else
    let max_index := recent_slots.length - 1
    let median_index := max_index / 2
    let median_recent_slot := (recent_slots.getD median_index default).slot
    let expected_current_slot :=
      (median_recent_slot + (max_index - median_index)) % U64_SIZE
    let max_reasonable_current_slot :=
      (expected_current_slot + MAX_SLOT_SKIP_DISTANCE) % U64_SIZE
    match rposition (fun e => e.slot ≤ max_reasonable_current_slot) recent_slots with
    | none => none
    | some idx =>
      let slot_event := recent_slots.getD idx default
      some (if slot_event.is_start then slot_event.slot
            else min (slot_event.slot + 1) (U64_SIZE - 1))

/-- Modelled from the spec: the reference estimation algorithm of spec §4.1
(steps 1–6), for comparison with `estimate_current_slot`.  Sort by
(slot ascending, `Start` before `End`); `max_idx = len−1`,
`median_idx = max_idx / 2`, `expected = median_slot + (max_idx − median_idx)`,
`cap = expected + 48` (in exact arithmetic, as the spec's steps are stated
mathematically); greatest index with slot ≤ cap, falling back to
`median_idx` if none exists; estimate is the slot for a `Start` and
`slot + 1` saturating at the `u64` maximum for an `End`. -/
def spec_estimate (ring : List SlotEvent) : Nat :=
  let sorted := sortEvents ring
  let max_idx := sorted.length - 1
  let median_idx := max_idx / 2
  let median_slot := (sorted.getD median_idx default).slot
  let expected := median_slot + (max_idx - median_idx)
  let cap := expected + MAX_SLOT_SKIP_DISTANCE
  let i := (rposition (fun e => e.slot ≤ cap) sorted).getD median_idx
  let e := sorted.getD i default
  if e.is_start then e.slot else min (e.slot + 1) (U64_SIZE - 1)

/-- The pre-wrap value of the estimator's cap computation on a ring:
`median_slot + (max_index - median_index) + MAX_SLOT_SKIP_DISTANCE` in exact
arithmetic.  When it is below `2^64` the source's two `u64` additions do not
overflow and the wrapped cap equals it. -/
def estimator_cap (ring : List SlotEvent) : Nat :=
  ((sortEvents ring).getD (((sortEvents ring).length - 1) / 2) default).slot
    + (((sortEvents ring).length - 1) - ((sortEvents ring).length - 1) / 2)
    + MAX_SLOT_SKIP_DISTANCE

lemma insertEv_length (e : SlotEvent) (l : List SlotEvent) :
    (insertEv e l).length = l.length + 1 := by
  induction l with
  | nil => rfl
  | cons x xs ih =>
    unfold insertEv
    by_cases h : evLe e x
    · simp [h]
    · simp [h, ih]

lemma sortEvents_length (l : List SlotEvent) : (sortEvents l).length = l.length := by
  induction l with
  | nil => rfl
  | cons x xs ih => unfold sortEvents; rw [insertEv_length, ih]; rfl

lemma rposition_isSome (p : α → Bool) (l : List α) (x : α) (hx : x ∈ l) (hp : p x = true) :
    (rposition p l).isSome := by
  induction l with
  | nil => cases hx
  | cons y ys ih =>
    unfold rposition
    cases h : rposition p ys with
    | some i => simp
    | none =>
      rcases List.mem_cons.mp hx with rfl | hmem
      · simp [hp]
      · have hs := ih hmem
        rw [h] at hs
        simp at hs

/-- The `rposition` of `estimate_current_slot` always finds an index on a
non-empty sorted ring: the median element itself satisfies the cap. -/
lemma estimate_rposition_isSome (ring : List SlotEvent) (h : ring ≠ []) :
    (rposition
      (fun e => e.slot ≤
        ((sortEvents ring).getD (((sortEvents ring).length - 1) / 2) default).slot
          + (((sortEvents ring).length - 1) - ((sortEvents ring).length - 1) / 2)
          + MAX_SLOT_SKIP_DISTANCE)
      (sortEvents ring)).isSome := by
  have hlen : (sortEvents ring).length ≠ 0 := by
    rw [sortEvents_length]
    have := List.length_pos.mpr h
    omega
  have hmed : ((sortEvents ring).length - 1) / 2 < (sortEvents ring).length := by omega
  apply rposition_isSome _ _ ((sortEvents ring).getD (((sortEvents ring).length - 1) / 2) default)
  · rw [List.getD_eq_getElem _ _ hmed]
    exact List.getElem_mem hmed
  · simp
    omega

/-- When the cap computation does not overflow `u64`, `estimate_current_slot`
hits neither panic branch on a non-empty ring. -/
lemma estimate_isSome (ring : List SlotEvent) (h : ring ≠ [])
    (hcap : estimator_cap ring < U64_SIZE) :
    (estimate_current_slot ring).isSome := by
  have hlen : (sortEvents ring).length ≠ 0 := by
    rw [sortEvents_length]
    have := List.length_pos.mpr h
    omega
  have hr := estimate_rposition_isSome ring h
  unfold estimator_cap at hcap
  unfold estimate_current_slot
  simp only [MAX_SLOT_SKIP_DISTANCE] at *
  have hm : (((sortEvents ring).getD (((sortEvents ring).length - 1) / 2) default).slot
        + (((sortEvents ring).length - 1) - ((sortEvents ring).length - 1) / 2)) % U64_SIZE
      = ((sortEvents ring).getD (((sortEvents ring).length - 1) / 2) default).slot
        + (((sortEvents ring).length - 1) - ((sortEvents ring).length - 1) / 2) :=
    Nat.mod_eq_of_lt (by omega)
  have hc : (((sortEvents ring).getD (((sortEvents ring).length - 1) / 2) default).slot
        + (((sortEvents ring).length - 1) - ((sortEvents ring).length - 1) / 2) + 48) % U64_SIZE
      = ((sortEvents ring).getD (((sortEvents ring).length - 1) / 2) default).slot
        + (((sortEvents ring).length - 1) - ((sortEvents ring).length - 1) / 2) + 48 :=
    Nat.mod_eq_of_lt (by omega)
  rw [if_neg hlen]
  simp only [hm, hc]
  cases hrp : rposition
      (fun e => e.slot ≤
        ((sortEvents ring).getD (((sortEvents ring).length - 1) / 2) default).slot
          + (((sortEvents ring).length - 1) - ((sortEvents ring).length - 1) / 2) + 48)
      (sortEvents ring) with
  | none => rw [hrp] at hr; simp at hr
  | some idx => simp

/-- On a non-empty ring whose cap computation does not overflow `u64`, the
code estimator agrees with the spec reference algorithm (the wrapped cap
equals the exact one, and the spec's fallback-to-median branch never fires
because the greatest-index search succeeds). -/
lemma estimate_eq_spec (ring : List SlotEvent) (h : ring ≠ [])
    (hcap : estimator_cap ring < U64_SIZE) :
    estimate_current_slot ring = some (spec_estimate ring) := by
  have hlen : (sortEvents ring).length ≠ 0 := by
    rw [sortEvents_length]
    have := List.length_pos.mpr h
    omega
  have hr := estimate_rposition_isSome ring h
  unfold estimator_cap at hcap
  unfold estimate_current_slot spec_estimate
  simp only [MAX_SLOT_SKIP_DISTANCE] at *
  have hm : (((sortEvents ring).getD (((sortEvents ring).length - 1) / 2) default).slot
        + (((sortEvents ring).length - 1) - ((sortEvents ring).length - 1) / 2)) % U64_SIZE
      = ((sortEvents ring).getD (((sortEvents ring).length - 1) / 2) default).slot
        + (((sortEvents ring).length - 1) - ((sortEvents ring).length - 1) / 2) :=
    Nat.mod_eq_of_lt (by omega)
  have hc : (((sortEvents ring).getD (((sortEvents ring).length - 1) / 2) default).slot
        + (((sortEvents ring).length - 1) - ((sortEvents ring).length - 1) / 2) + 48) % U64_SIZE
      = ((sortEvents ring).getD (((sortEvents ring).length - 1) / 2) default).slot
        + (((sortEvents ring).length - 1) - ((sortEvents ring).length - 1) / 2) + 48 :=
    Nat.mod_eq_of_lt (by omega)
  rw [if_neg hlen]
  simp only [hm, hc]
  cases hrp : rposition
      (fun e => e.slot ≤
        ((sortEvents ring).getD (((sortEvents ring).length - 1) / 2) default).slot
          + (((sortEvents ring).length - 1) - ((sortEvents ring).length - 1) / 2) + 48)
      (sortEvents ring) with
  | none => rw [hrp] at hr; simp at hr
  | some idx => simp [hrp]

/-- The `solana_client::rpc_response::SlotUpdate` variants that `record`
distinguishes; `Other` collapses every ignored variant (`CreatedBank`,
`Frozen`, `Dead`, …). -/
inductive SlotUpdate : Type where
  | FirstShredReceived : Nat → SlotUpdate
  | Completed : Nat → SlotUpdate
  | Other : SlotUpdate
  deriving DecidableEq, Repr

/-- `SlotsTracker` from `slots_tracker.rs`: a `VecDeque` ring of recent
events (head = oldest) and the cached current-slot estimate (`self.1`). -/
structure SlotsTracker : Type where
  ring : List SlotEvent
  slot : Nat
  deriving DecidableEq, Repr

/-- `SlotsTracker::new`. -/
def SlotsTracker.new : SlotsTracker := ⟨[], 0⟩

/-- The trim loop of `record`:
`while self.0.len() > RECENT_LEADER_SLOTS_CAPACITY { self.0.pop_front(); }`,
i.e. drop the oldest `len - 48` events when the ring overflows. -/
def trimRing (l : List SlotEvent) : List SlotEvent :=
  l.drop (l.length - RECENT_LEADER_SLOTS_CAPACITY)

/-- The accepted-event path of `record`: push the event, trim, recompute the
cached estimate (`self.1 = self.estimate_current_slot()`).  A `none` from
the estimator — its panic — makes the whole call panic, so `push` returns
`none` in that case instead of a new state. -/
def SlotsTracker.push (t : SlotsTracker) (e : SlotEvent) : Option SlotsTracker :=
  let ring := trimRing (t.ring ++ [e])
  (estimate_current_slot ring).map (fun v => { ring := ring, slot := v })

/-- How one `record` call terminates: `ignored` is the source's `None`
return for an uninteresting update (state unchanged); `accepted t2` is its
`Some(())` return, with `t2` the mutated state; `panicked` means the
estimator panicked inside `record`, so the call never returns. -/
inductive RecordResult : Type where
  | ignored : RecordResult
  | panicked : RecordResult
  | accepted : SlotsTracker → RecordResult
  deriving DecidableEq, Repr

/-- `SlotsTracker::record`: `FirstShredReceived` pushes a `Start`,
`Completed` pushes an `End`, everything else is ignored and leaves the
state unchanged; a pushed event whose re-estimate panics makes the call
panic. -/
def SlotsTracker.record (t : SlotsTracker) (u : SlotUpdate) : RecordResult :=
  match u with
  | .FirstShredReceived s =>
    match t.push (.Start s) with
    | some t2 => .accepted t2
    | none => .panicked
  | .Completed s =>
    match t.push (.End s) with
    | some t2 => .accepted t2
    | none => .panicked
  | .Other => .ignored

/-- Event number `j` of the well-formed (contiguous) stream that starts at
slot `s`: `Start s, End s, Start (s+1), End (s+1), …`. -/
def genEvent (s j : Nat) : SlotEvent :=
  if j % 2 = 0 then .Start (s + j / 2) else .End (s + j / 2)

/-- The upstream notification carrying `genEvent s j`. -/
def genUpdate (s j : Nat) : SlotUpdate :=
  if j % 2 = 0 then .FirstShredReceived (s + j / 2) else .Completed (s + j / 2)

/-- Tracker state after recording the first `n` events of the well-formed
stream starting at slot `s` (any non-accepted record leaves the state as
is; the theorems below show every record in their slot range is
accepted). -/
def trackerAfter (s : Nat) : Nat → SlotsTracker
  | 0 => SlotsTracker.new
  | n + 1 =>
    match (trackerAfter s n).record (genUpdate s n) with
    | .accepted t2 => t2
    | _ => trackerAfter s n

/-- The events of the well-formed stream at absolute indices `[a, a+L)`. -/
def winEvents (s a : Nat) : Nat → List SlotEvent
  | 0 => []
  | L + 1 => genEvent s a :: winEvents s (a + 1) L

lemma winEvents_length (s : Nat) : ∀ L a, (winEvents s a L).length = L := by
  intro L
  induction L with
  | zero => intro a; rfl
  | succ L ih => intro a; simp [winEvents, ih]

lemma winEvents_concat (s : Nat) : ∀ L a,
    winEvents s a L ++ [genEvent s (a + L)] = winEvents s a (L + 1) := by
  intro L
  induction L with
  | zero => intro a; simp [winEvents]
  | succ L ih =>
    intro a
    show genEvent s a :: (winEvents s (a + 1) L ++ [genEvent s (a + (L + 1))]) = _
    rw [show a + (L + 1) = (a + 1) + L by omega, ih]
    rfl

lemma winEvents_getD (s : Nat) : ∀ L a i, i < L →
    (winEvents s a L).getD i default = genEvent s (a + i) := by
  intro L
  induction L with
  | zero => intro a i hi; omega
  | succ L ih =>
    intro a i hi
    cases i with
    | zero => rfl
    | succ i =>
      show (winEvents s (a + 1) L).getD i default = _
      rw [ih (a + 1) i (by omega)]
      congr 1
      omega

lemma evLe_genEvent_succ (s j : Nat) : evLe (genEvent s j) (genEvent s (j + 1)) = true := by
  rcases Nat.mod_two_eq_zero_or_one j with h | h
  · have h1 : (j + 1) % 2 = 1 := by omega
    have h2 : (j + 1) / 2 = j / 2 := by omega
    simp [genEvent, evLe, h, h1, h2, SlotEvent.slot, SlotEvent.is_start]
  · have h1 : (j + 1) % 2 = 0 := by omega
    have h2 : (j + 1) / 2 = j / 2 + 1 := by omega
    simp [genEvent, evLe, h, h1, h2, SlotEvent.slot, SlotEvent.is_start]

lemma winEvents_chain (s : Nat) : ∀ L a,
    List.Chain' (fun x y => evLe x y = true) (winEvents s a L) := by
  intro L
  induction L with
  | zero => intro a; simp [winEvents]
  | succ L ih =>
    intro a
    cases L with
    | zero => simp [winEvents]
    | succ L =>
      show List.Chain' _ (genEvent s a :: genEvent s (a + 1) :: winEvents s (a + 2) L)
      rw [List.chain'_cons]
      exact ⟨evLe_genEvent_succ s a, ih (a + 1)⟩

lemma sortEvents_of_chain : ∀ l : List SlotEvent,
    List.Chain' (fun x y => evLe x y = true) l → sortEvents l = l := by
  intro l hl
  induction l with
  | nil => rfl
  | cons x xs ih =>
    have hxs := hl.tail
    show insertEv x (sortEvents xs) = x :: xs
    rw [ih hxs]
    cases xs with
    | nil => rfl
    | cons y ys =>
      have hxy : evLe x y = true := (List.chain'_cons.mp hl).1
      simp [insertEv, hxy]

lemma rposition_append_last (p : α → Bool) (x : α) (hp : p x = true) :
    ∀ l : List α, rposition p (l ++ [x]) = some l.length := by
  intro l
  induction l with
  | nil => simp [rposition, hp]
  | cons y ys ih => simp [rposition, ih]

lemma genEvent_slot (s j : Nat) : (genEvent s j).slot = s + j / 2 := by
  unfold genEvent
  split <;> rfl

/-- The estimator on a window of `L` contiguous-stream events starting at
absolute event index `a` (with `1 ≤ L ≤ 48`, as maintained by `record`)
returns the slot of the last event for a `Start` and one more for an `End`,
i.e. `s + (a + L) / 2`. -/
lemma estimate_winEvents (s a L : Nat) (h1 : 1 ≤ L) (h48 : L ≤ 48)
    (hB : s + (a + L) / 2 + 72 < U64_SIZE) :
    estimate_current_slot (winEvents s a L) = some (s + (a + L) / 2) := by
  have hsort := sortEvents_of_chain _ (winEvents_chain s L a)
  have hlen := winEvents_length s L a
  have hmed := winEvents_getD s L a ((L - 1) / 2) (by omega)
  have hcat := winEvents_concat s (L - 1) a
  rw [show (L - 1) + 1 = L by omega] at hcat
  have hms : (genEvent s (a + (L - 1) / 2)).slot = s + (a + (L - 1) / 2) / 2 :=
    genEvent_slot _ _
  have hlast : (genEvent s (a + (L - 1))).slot ≤
      (genEvent s (a + (L - 1) / 2)).slot + ((L - 1) - (L - 1) / 2) + 48 := by
    rw [genEvent_slot, genEvent_slot]
    omega
  simp only [estimate_current_slot, MAX_SLOT_SKIP_DISTANCE]
  rw [hsort, hlen, if_neg (by omega : ¬ L = 0), hmed]
  have hm : ((genEvent s (a + (L - 1) / 2)).slot + (L - 1 - (L - 1) / 2)) % U64_SIZE
      = (genEvent s (a + (L - 1) / 2)).slot + (L - 1 - (L - 1) / 2) :=
    Nat.mod_eq_of_lt (by rw [hms]; omega)
  have hc : ((genEvent s (a + (L - 1) / 2)).slot + (L - 1 - (L - 1) / 2) + 48) % U64_SIZE
      = (genEvent s (a + (L - 1) / 2)).slot + (L - 1 - (L - 1) / 2) + 48 :=
    Nat.mod_eq_of_lt (by rw [hms]; omega)
  simp only [hm, hc]
  have hrp : rposition
      (fun e => decide (e.slot ≤
        (genEvent s (a + (L - 1) / 2)).slot + (L - 1 - (L - 1) / 2) + 48))
      (winEvents s a L) = some (L - 1) := by
    rw [← hcat, rposition_append_last _ _ (by simpa using hlast), winEvents_length]
  rw [hrp]
  show some (if ((winEvents s a L).getD (L - 1) default).is_start = true
      then ((winEvents s a L).getD (L - 1) default).slot
      else min (((winEvents s a L).getD (L - 1) default).slot + 1) (U64_SIZE - 1)) =
    some (s + (a + L) / 2)
  rw [winEvents_getD s L a (L - 1) (by omega)]
  rcases Nat.mod_two_eq_zero_or_one (a + (L - 1)) with h | h
  · simp [genEvent, h, SlotEvent.is_start, SlotEvent.slot]
    omega
  · simp [genEvent, h, SlotEvent.is_start, SlotEvent.slot]
    rw [min_eq_left (by omega)]
    omega

lemma record_genUpdate (t : SlotsTracker) (s n : Nat) :
    t.record (genUpdate s n) =
      match t.push (genEvent s n) with
      | some t2 => RecordResult.accepted t2
      | none => RecordResult.panicked := by
  rcases Nat.mod_two_eq_zero_or_one n with h | h
  · rw [show genUpdate s n = SlotUpdate.FirstShredReceived (s + n / 2) by
        simp [genUpdate, h],
      show genEvent s n = SlotEvent.Start (s + n / 2) by simp [genEvent, h]]
    rfl
  · rw [show genUpdate s n = SlotUpdate.Completed (s + n / 2) by
        simp [genUpdate, h],
      show genEvent s n = SlotEvent.End (s + n / 2) by simp [genEvent, h]]
    rfl

/-- One `push` step on the closed-form state, in the slot range where the
estimator does not overflow. -/
lemma push_closed (s n : Nat) (hB : s + (n + 1) / 2 + 72 < U64_SIZE) :
    SlotsTracker.push
        ⟨winEvents s (n - 48) (min n 48), if n = 0 then 0 else s + n / 2⟩
        (genEvent s n) =
      some ⟨winEvents s (n + 1 - 48) (min (n + 1) 48), s + (n + 1) / 2⟩ := by
  simp only [SlotsTracker.push]
  have hsum : (n - 48) + min n 48 = n := by omega
  have hcat := winEvents_concat s (min n 48) (n - 48)
  rw [hsum] at hcat
  have hring : trimRing (winEvents s (n - 48) (min n 48) ++ [genEvent s n]) =
      winEvents s (n + 1 - 48) (min (n + 1) 48) := by
    rw [hcat]
    unfold trimRing RECENT_LEADER_SLOTS_CAPACITY
    rw [winEvents_length]
    rcases le_or_lt 48 n with hn | hn
    · rw [show min n 48 = 48 by omega, show min (n + 1) 48 = 48 by omega]
      show List.drop 1 (genEvent s (n - 48) :: winEvents s (n - 48 + 1) 48) = _
      rw [List.drop_succ_cons, List.drop_zero]
      congr 1
      omega
    · rw [show min n 48 = n by omega, show min (n + 1) 48 = n + 1 by omega,
        show n + 1 - 48 = 0 by omega, show n - 48 = 0 by omega]
      exact List.drop_zero _
  rw [hring]
  have hest := estimate_winEvents s (n + 1 - 48) (min (n + 1) 48)
    (by omega) (by omega) (by omega)
  rw [show (n + 1 - 48) + min (n + 1) 48 = n + 1 by omega] at hest
  rw [hest]
  rfl

/-- Closed form for the tracker state along the well-formed stream, in the
slot range where the estimator does not overflow: the ring is the last
`min n 48` events and the cached slot is `s + n / 2` (or the initial `0`
before any event). -/
lemma trackerAfter_closed (s : Nat) : ∀ n : Nat, s + n / 2 + 72 < U64_SIZE →
    trackerAfter s n =
      ⟨winEvents s (n - 48) (min n 48), if n = 0 then 0 else s + n / 2⟩ := by
  intro n
  induction n with
  | zero => intro hB; rfl
  | succ n ih =>
    intro hB
    have hBn : s + n / 2 + 72 < U64_SIZE := by omega
    show (match (trackerAfter s n).record (genUpdate s n) with
          | .accepted t2 => t2
          | _ => trackerAfter s n) = _
    rw [ih hBn, record_genUpdate, push_closed s n hB]
    simp

example : estimate_current_slot
    ((List.range 12).flatMap (fun i => [.Start (i + 1), .End (i + 1)])) = some 13 := by decide
example : estimate_current_slot [.Start 0, .End 0, .Start 49, .End 49] = some 50 := by decide
example : estimate_current_slot [.Start 0, .End 0, .Start 50, .End 50] = some 51 := by decide
example : estimate_current_slot
    [.Start 1, .End 1, .Start 2, .End 2, .Start 100, .End 100] = some 3 := by decide
example : estimate_current_slot
    [.Start 1, .End 1, .Start 2, .End 2, .Start 3, .End 3, .Start 99, .End 99,
     .Start 100, .End 100] = some 4 := by decide

/-- `SlotsTracker::get_slot`: the cached current-slot estimate. -/
def SlotsTracker.get_slot (t : SlotsTracker) : Nat := t.slot

/-- A one-event ring carrying the largest representable `u64` slot — a
single adversarial `FirstShredReceived { slot: u64::MAX }` notification. -/
def overflowRing : List SlotEvent := [SlotEvent.Start (U64_SIZE - 1)]

/-- Counterexample to C6 as stated: on the representable ring
`[Start (2^64 - 1)]` the code's cap wraps to `47`, the reverse search finds
nothing and the estimator panics (`none`), while the spec's reference
algorithm — exact arithmetic plus the fallback the code lacks — yields
`2^64 - 1`; so the universal code = spec equality fails. -/
theorem C6_overflow_counterexample :
    overflowRing ≠ [] ∧
    estimate_current_slot overflowRing = none ∧
    spec_estimate overflowRing = U64_SIZE - 1 ∧
    estimate_current_slot overflowRing ≠ some (spec_estimate overflowRing) := by
  refine ⟨by decide, by decide, by decide, by decide⟩

/-- C6 (amended): for every non-empty event ring whose cap computation
`median_slot + (max_idx − median_idx) + 48` stays below `2^64` (no `u64`
overflow), `estimate_current_slot` equals the spec's reference algorithm
(sort by slot ascending with `Start` before `End`, median-based cap with
skip distance 48, greatest index within the cap with fallback to the
median, `Start ↦ slot` / `End ↦ saturating slot + 1`); in particular on the
ring `[Start 1, End 1, Start 100, End 100]` the estimate is `2` and not
`101`, so far-future outliers do not raise the estimate.  On a ring whose
cap computation overflows, the code panics instead. -/
theorem C6_estimator_matches_spec_amended :
    (∀ ring : List SlotEvent, ring ≠ [] → estimator_cap ring < U64_SIZE →
      estimate_current_slot ring = some (spec_estimate ring)) ∧
    estimate_current_slot [.Start 1, .End 1, .Start 100, .End 100] = some 2 ∧
    spec_estimate [.Start 1, .End 1, .Start 100, .End 100] = 2 :=
  ⟨estimate_eq_spec, by decide, by decide⟩

/-- Witness for C6 at the concrete non-empty, non-overflowing ring
`[Start 5]`. -/
theorem C6_estimator_matches_spec_amended_witness :
    (([SlotEvent.Start 5] : List SlotEvent) ≠ [] ∧
        estimator_cap [SlotEvent.Start 5] < U64_SIZE) ∧
      estimate_current_slot [SlotEvent.Start 5] =
        some (spec_estimate [SlotEvent.Start 5]) :=
  ⟨⟨by decide, by decide⟩,
    C6_estimator_matches_spec_amended.1 [SlotEvent.Start 5] (by decide) (by decide)⟩

/-- Counterexample to C10 as stated: the `expect("no reasonable slot")`
branch IS reachable.  On the non-empty ring `[Start (2^64 - 1)]` — which
`record` maintains after one `FirstShredReceived { slot: u64::MAX }` — the
cap computation overflows `u64` (debug: panic at the addition; release: cap
wraps to `47`), the reverse search finds no index, and the `expect` fires:
the estimator is not total on the non-empty rings `record` maintains. -/
theorem C10_expect_reachable_counterexample :
    overflowRing ≠ [] ∧
    estimate_current_slot overflowRing = none := by
  refine ⟨by decide, by decide⟩

/-- C10 (amended): on every non-empty ring whose cap computation
`median_slot + (max_idx − median_idx) + 48` does not overflow `u64`, the
reverse search for the greatest index whose slot is within the cap finds
some index — the median element itself satisfies the bound — and the
estimator returns a value; the `expect("no reasonable slot")` panic is
unreachable only in that no-overflow range, not on all representable
rings. -/
theorem C10_expect_unreachable_amended :
    ∀ ring : List SlotEvent, ring ≠ [] → estimator_cap ring < U64_SIZE →
      (rposition (fun e => e.slot ≤ estimator_cap ring) (sortEvents ring)).isSome ∧
      (estimate_current_slot ring).isSome :=
  fun ring h hcap => ⟨estimate_rposition_isSome ring h, estimate_isSome ring h hcap⟩

/-- Witness for C10 at the concrete non-overflowing ring `[End 7]`. -/
theorem C10_expect_unreachable_amended_witness :
    (([SlotEvent.End 7] : List SlotEvent) ≠ [] ∧
        estimator_cap [SlotEvent.End 7] < U64_SIZE) ∧
      (estimate_current_slot [SlotEvent.End 7]).isSome :=
  ⟨⟨by decide, by decide⟩,
    (C10_expect_unreachable_amended [SlotEvent.End 7] (by decide) (by decide)).2⟩

/-- Counterexample to C7 as stated: the very first event of the well-formed
stream starting at slot `2^64 - 1` (a representable `u64` slot) makes
`record` panic inside the estimator instead of being accepted, so the
program crashes rather than producing the next monotone estimate. -/
theorem C7_record_panics_counterexample :
    genUpdate (U64_SIZE - 1) 0 = SlotUpdate.FirstShredReceived (U64_SIZE - 1) ∧
    (trackerAfter (U64_SIZE - 1) 0).record (genUpdate (U64_SIZE - 1) 0) =
      RecordResult.panicked := by
  refine ⟨rfl, by decide⟩

/-- C7 (amended): along a well-formed stream of contiguous `Start`/`End`
events whose slots keep the estimator clear of `u64` overflow
(`s + (n+1)/2 + 72 < 2^64`), every `record` is accepted and the cached
`get_slot` estimate after each accepted `record` is at least the estimate
before it: `current_slot()` is monotone non-decreasing.  At slots near
`u64::MAX` the estimator panics inside `record` instead. -/
theorem C7_current_slot_monotone_amended :
    ∀ s n : Nat, s + (n + 1) / 2 + 72 < U64_SIZE →
      (trackerAfter s n).record (genUpdate s n) =
        RecordResult.accepted (trackerAfter s (n + 1)) ∧
      (trackerAfter s n).get_slot ≤ (trackerAfter s (n + 1)).get_slot := by
  intro s n hB
  have hBn : s + n / 2 + 72 < U64_SIZE := by omega
  have hn := trackerAfter_closed s n hBn
  have hn1 := trackerAfter_closed s (n + 1) hB
  constructor
  · rw [hn, record_genUpdate, push_closed s n hB, hn1]
    simp
  · show (trackerAfter s n).slot ≤ (trackerAfter s (n + 1)).slot
    rw [hn, hn1]
    simp only []
    rcases Nat.eq_zero_or_pos n with rfl | hpos
    · simp
    · rw [if_neg (by omega), if_neg (by omega)]
      omega

/-- Witness for C7's amended statement at the concrete stream start
`s = 5`, step `n = 0`. -/
theorem C7_current_slot_monotone_amended_witness :
    (5 : Nat) + (0 + 1) / 2 + 72 < U64_SIZE ∧
      ((trackerAfter 5 0).record (genUpdate 5 0) =
          RecordResult.accepted (trackerAfter 5 1) ∧
        (trackerAfter 5 0).get_slot ≤ (trackerAfter 5 1).get_slot) :=
  ⟨by decide, C7_current_slot_monotone_amended 5 0 (by decide)⟩

/-! ## ScheduleTracker (`schedule_tracking.rs`) -/

/-- A leader schedule: slot index within an epoch ↦ validator pubkey.
Models `HashMap<usize, String>` as an association list queried with
`List.lookup` (the shape produced by `fetch_schedule`'s inversion loop). -/
abbrev Schedule := List (Nat × String)

/-- `ScheduleTracker` from `schedule_tracking.rs`. -/
structure ScheduleTracker : Type where
  curr_epoch_slot_start : Nat
  next_epoch_slot_start : Nat
  curr_schedule : Schedule
  next_schedule : Schedule
  slots_in_epoch : Nat
  deriving DecidableEq, Repr

/-- `ScheduleTracker::fetch_schedule`.  The RPC call plus the inversion of
the upstream `(pubkey ↦ [slot_index])` map into `(slot_index ↦ pubkey)` is
an oracle `rpc` returning the inverted schedule or the RPC error; the
`ensure!(!schedule.is_empty(), ..)` check of the source is kept. -/
def fetch_schedule (rpc : Nat → Except String Schedule) (slot : Nat) :
    Except String Schedule :=
  match rpc slot with
  | .error e => .error e
  | .ok schedule =>
    if schedule.isEmpty then .error "Fetched empty schedule" else .ok schedule

/-- `ScheduleTracker::get_leader_for_slot_index`. -/
def get_leader_for_slot_index (t : ScheduleTracker) (slot_index : Nat) : Option String :=
  t.curr_schedule.lookup slot_index

/-- `ScheduleTracker::slot_to_index`: epoch-relative index when
`curr_epoch_slot_start ≤ slot < next_epoch_slot_start`, otherwise `None`. -/
def slot_to_index (t : ScheduleTracker) (slot : Nat) : Option Nat :=
  if slot < t.curr_epoch_slot_start then none
  else if t.next_epoch_slot_start ≤ slot then none
  else some (slot - t.curr_epoch_slot_start)

/-- `ScheduleTracker::maybe_rotate`.  The `&mut self` receiver is mirrored by
returning the post-call state next to the `Result<bool>`.  On the rotation
path the source first shifts both epoch bounds, then moves `next_schedule`
into `curr_schedule` via `std::mem::take` — leaving `next_schedule` at its
`Default` value, the empty map — and only then fetches the replacement; a
fetch error therefore propagates with `?` while the state keeps the shifted
bounds and the empty `next_schedule`. -/
def maybe_rotate (t : ScheduleTracker) (current_slot : Nat)
    (rpc : Nat → Except String Schedule) : ScheduleTracker × Except String Bool :=
  if current_slot < t.next_epoch_slot_start then (t, .ok false)
  else
    let t1 : ScheduleTracker :=
      { curr_epoch_slot_start := t.next_epoch_slot_start
        next_epoch_slot_start := t.next_epoch_slot_start + t.slots_in_epoch
        curr_schedule := t.next_schedule
        next_schedule := []
        slots_in_epoch := t.slots_in_epoch }
    match fetch_schedule rpc t1.next_epoch_slot_start with
    | .error e => (t1, .error e)
    | .ok m => ({ t1 with next_schedule := m }, .ok true)

/-- C9: a `maybe_rotate` call with `current_slot` still inside the current
epoch returns `Ok(false)` and the state — every field — is unchanged, and a
repeated such call gives the same result, so such calls are idempotent. -/
theorem C9_maybe_rotate_idempotent :
    ∀ (t : ScheduleTracker) (current_slot : Nat) (rpc : Nat → Except String Schedule),
      current_slot < t.next_epoch_slot_start →
      maybe_rotate t current_slot rpc = (t, .ok false) ∧
      maybe_rotate (maybe_rotate t current_slot rpc).1 current_slot rpc = (t, .ok false) := by
  intro t current_slot rpc h
  have h1 : maybe_rotate t current_slot rpc = (t, .ok false) := by
    unfold maybe_rotate
    rw [if_pos h]
  exact ⟨h1, by rw [h1, h1]⟩

/-- A concrete tracker used by the C9 witness. -/
def c9_state : ScheduleTracker :=
  { curr_epoch_slot_start := 0, next_epoch_slot_start := 10,
    curr_schedule := [(0, "A")], next_schedule := [(0, "B")],
    slots_in_epoch := 10 }

/-- Witness for C9 at a concrete tracker and slot. -/
theorem C9_maybe_rotate_idempotent_witness :
    (5 : Nat) < c9_state.next_epoch_slot_start ∧
    maybe_rotate c9_state 5 (fun _ => .error "down") = (c9_state, .ok false) :=
  ⟨by decide,
    (C9_maybe_rotate_idempotent c9_state 5 (fun _ => .error "down") (by decide)).1⟩

/-- A concrete tracker about to rotate at the epoch boundary, with a
non-empty `next_schedule`. -/
def c3_state : ScheduleTracker :=
  { curr_epoch_slot_start := 0, next_epoch_slot_start := 432000,
    curr_schedule := [(0, "A")], next_schedule := [(0, "B")],
    slots_in_epoch := 432000 }

/-- An RPC oracle whose schedule fetch always fails. -/
def c3_rpc : Nat → Except String Schedule :=
  fun _ => .error "RPC call to get_leader_schedule failed"

/-- C3 (code evaluated at the failing input): when `maybe_rotate` runs at
`current_slot ≥ next_epoch_slot_start` and the fetch of the new next-epoch
schedule fails, the error is returned, but — contrary to the claim — the
`next_schedule` map IS left empty (the old value, moved out by
`std::mem::take`, is not restored and no retry happens), and the epoch
bounds keep their shifted values. -/
theorem C3_rotation_failure_leaves_next_schedule_empty :
    c3_state.next_schedule ≠ [] ∧
    (maybe_rotate c3_state 432000 c3_rpc).2 =
      .error "RPC call to get_leader_schedule failed" ∧
    (maybe_rotate c3_state 432000 c3_rpc).1.next_schedule = [] ∧
    (maybe_rotate c3_state 432000 c3_rpc).1.curr_epoch_slot_start = 432000 := by
  refine ⟨by decide, ?_, ?_, ?_⟩ <;> rfl

/-! ## LeaderTracker (`tracker/leader_tracker.rs`) -/

/-- The consistent snapshot that `get_future_leaders` takes at the start of
the call, under the three read locks held together: the slot tracker's
current slot, the schedule tracker, and the `leader_sockets` registry
(identity ↦ socket, a `HashMap<String, String>` as an association list). -/
structure LeaderTrackerSnapshot : Type where
  curr_slot : Nat
  sched : ScheduleTracker
  leader_sockets : List (String × String)
  deriving DecidableEq, Repr

/-- The `for i in start..end` loop body of `get_future_leaders`, with `fuel`
the remaining iterations.  Per iteration: `curr_slot.checked_add(i)` (break
on overflow), break when the target slot reaches `next_epoch_slot_start`,
`slot_to_index` (skip on `None`), `get_leader_for_slot_index` (skip on
`None`), dedup via the `seen` set (note the source inserts into `seen`
before the socket lookup, so an identity without a known socket is also
marked seen), and finally the socket-registry lookup (warn and skip when
missing). -/
def leadersLoop (st : LeaderTrackerSnapshot) : Nat → Nat → List String →
    List (String × String × Nat)
  | 0, _, _ => []
  | fuel + 1, i, seen =>
    if U64_SIZE ≤ st.curr_slot + i then []
    else
      let target_slot := st.curr_slot + i
      if st.sched.next_epoch_slot_start ≤ target_slot then []
      else
        match slot_to_index st.sched target_slot with
        | none => leadersLoop st fuel (i + 1) seen
        | some slot_index =>
          match get_leader_for_slot_index st.sched slot_index with
          | none => leadersLoop st fuel (i + 1) seen
          | some leader_pubkey =>
            if leader_pubkey ∈ seen then leadersLoop st fuel (i + 1) seen
            else
              match st.leader_sockets.lookup leader_pubkey with
              | some socket =>
                (leader_pubkey, socket, st.curr_slot) ::
                  leadersLoop st fuel (i + 1) (leader_pubkey :: seen)
              | none => leadersLoop st fuel (i + 1) (leader_pubkey :: seen)

/-- `LeaderTracker::get_future_leaders(start, end)` on the snapshot: empty
when `curr_slot == 0` or when `curr_slot` lies outside
`[curr_epoch_slot_start, next_epoch_slot_start)`, otherwise the loop over
`start..end` starting from an empty `seen` set. -/
def get_future_leaders (st : LeaderTrackerSnapshot) (start stop : Nat) :
    List (String × String × Nat) :=
  if st.curr_slot = 0 then []
  else if st.curr_slot < st.sched.curr_epoch_slot_start
      ∨ st.sched.next_epoch_slot_start ≤ st.curr_slot then []
  else leadersLoop st (stop - start) start []

/-- `LeaderTracker::get_leaders() = get_future_leaders(0, 2)`. -/
def get_leaders (st : LeaderTrackerSnapshot) : List (String × String × Nat) :=
  get_future_leaders st 0 2

/-- Loop invariant: the emitted identities are distinct, avoid `seen`, and
every entry carries the registry socket for its identity and the snapshot's
current slot. -/
lemma leadersLoop_spec (st : LeaderTrackerSnapshot) : ∀ fuel i seen,
    ((leadersLoop st fuel i seen).map Prod.fst).Nodup ∧
    ∀ e ∈ leadersLoop st fuel i seen, e.1 ∉ seen ∧
      st.leader_sockets.lookup e.1 = some e.2.1 ∧ e.2.2 = st.curr_slot := by
  intro fuel
  induction fuel with
  | zero => intro i seen; simp [leadersLoop]
  | succ fuel ih =>
    intro i seen
    simp only [leadersLoop]
    split
    next hof => simp
    next hof =>
    split
    next hep => simp
    next hep =>
    split
    next hsti => exact ih (i + 1) seen
    next slot_index hsti =>
    split
    next hpk => exact ih (i + 1) seen
    next pk hpk =>
    split
    next hseen => exact ih (i + 1) seen
    next hseen =>
    split
    next socket hsock =>
      obtain ihnd := (ih (i + 1) (pk :: seen)).1
      obtain ihmem := (ih (i + 1) (pk :: seen)).2
      constructor
      · refine List.Nodup.cons ?_ ihnd
        intro hmem
        rcases List.mem_map.mp hmem with ⟨e2, he2, hfst⟩
        exact (ihmem e2 he2).1 (hfst ▸ List.mem_cons_self pk seen)
      · intro e he
        rcases List.mem_cons.mp he with rfl | he
        · exact ⟨hseen, hsock, rfl⟩
        · obtain ⟨hns, hlk, hcs⟩ := ihmem e he
          exact ⟨fun hc => hns (List.mem_cons_of_mem _ hc), hlk, hcs⟩
    next hsock =>
      obtain ihnd := (ih (i + 1) (pk :: seen)).1
      obtain ihmem := (ih (i + 1) (pk :: seen)).2
      refine ⟨ihnd, fun e he => ?_⟩
      obtain ⟨hns, hlk, hcs⟩ := ihmem e he
      exact ⟨fun hc => hns (List.mem_cons_of_mem _ hc), hlk, hcs⟩

/-- The concrete snapshot of spec scenario 2: `current_slot = 10_000` at the
epoch start, `ID_A` is the leader of slot indices 0–3, and the registry
knows its socket. -/
def c8_state : LeaderTrackerSnapshot :=
  { curr_slot := 10000,
    sched :=
      { curr_epoch_slot_start := 10000, next_epoch_slot_start := 442000,
        curr_schedule := [(0, "ID_A"), (1, "ID_A"), (2, "ID_A"), (3, "ID_A")],
        next_schedule := [], slots_in_epoch := 432000 },
    leader_sockets := [("ID_A", "10.0.0.1:8001")] }

/-- C8: every list returned by `get_future_leaders` has pairwise-distinct
validator identities, each emitted socket is exactly the snapshot registry's
value for that identity, and each entry carries the snapshot's current slot;
in particular, when the current and the next slot have the same leader,
`get_leaders()` returns exactly one entry for it. -/
theorem C8_no_duplicate_identities :
    (∀ (st : LeaderTrackerSnapshot) (start stop : Nat),
      ((get_future_leaders st start stop).map Prod.fst).Nodup ∧
      ∀ e ∈ get_future_leaders st start stop,
        st.leader_sockets.lookup e.1 = some e.2.1 ∧ e.2.2 = st.curr_slot) ∧
    get_leaders c8_state = [("ID_A", "10.0.0.1:8001", 10000)] := by
  constructor
  · intro st start stop
    unfold get_future_leaders
    by_cases h0 : st.curr_slot = 0
    · simp [h0]
    rw [if_neg h0]
    by_cases hep : st.curr_slot < st.sched.curr_epoch_slot_start
        ∨ st.sched.next_epoch_slot_start ≤ st.curr_slot
    · simp [hep]
    rw [if_neg hep]
    obtain ⟨hnd, hmem⟩ := leadersLoop_spec st (stop - start) start []
    exact ⟨hnd, fun e he => (hmem e he).2⟩
  · decide

/-- Witness for C8: the socket of the single `get_leaders` entry of the
scenario-2 snapshot is the registry's value. -/
theorem C8_no_duplicate_identities_witness :
    ("ID_A", "10.0.0.1:8001", (10000 : Nat)) ∈ get_leaders c8_state ∧
    c8_state.leader_sockets.lookup "ID_A" = some "10.0.0.1:8001" :=
  ⟨by decide,
    ((C8_no_duplicate_identities.1 c8_state 0 2).2
      ("ID_A", "10.0.0.1:8001", 10000) (by decide)).1⟩

/-! ## TPU connection pool (`manager.rs`) -/

/-- A `quinn::Connection` as the pool logic observes it: a stable object
identity and its `close_reason()` (`None` while the connection is live). -/
structure QuinnConnection : Type where
  id : Nat
  close_reason : Option String
  deriving DecidableEq, Repr

/-- `Connection` from `manager.rs`: `conn: Option<QuinnConnection>`.
`Connection::default()` (`conn == None`) is the pending sentinel inserted
while a dial is in flight. -/
structure Connection : Type where
  conn : Option QuinnConnection
  deriving DecidableEq, Repr

/-- The pool's `DashMap<String, Connection>`, as an association list whose
binding for a key is found by `List.lookup`. -/
abbrev Pool := List (String × Connection)

/-- `DashMap::remove`. -/
def poolRemove (validator : String) (p : Pool) : Pool :=
  p.filter (fun kv => kv.1 != validator)

/-- `DashMap::insert` (replaces any existing binding). -/
def poolInsert (validator : String) (c : Connection) (p : Pool) : Pool :=
  (validator, c) :: poolRemove validator p

/-- `TpuConnectionManager::get_connection`: a read-only lookup — the source
takes the read lock and performs no mutation.  `Ok(Some(conn))` for a cached
connection with no close-reason; `Err("No connection is open")` when the
entry is the pending sentinel; `Ok(None)` otherwise, i.e. when there is no
entry or when the cached connection is observed closed (the closed entry is
left in place). -/
def get_connection (pool : Pool) (validator : String) :
    Except String (Option QuinnConnection) :=
  match pool.lookup validator with
  | some c =>
    match c.conn with
    | some conn =>
      if conn.close_reason = none then .ok (some conn) else .ok none
    | none => .error "No connection is open"
  | none => .ok none

/-- The environment-dependent steps of `get_or_create_connection` for a
given validator string: `into_0rtt()` accepted (yielding the connection at
once), 0-RTT refused with the full handshake succeeding, or 0-RTT refused
with the handshake failing. -/
inductive DialOutcome : Type where
  | ZeroRtt : QuinnConnection → DialOutcome
  | Handshake : QuinnConnection → DialOutcome
  | HandshakeFailed : String → DialOutcome
  deriving DecidableEq, Repr

/-- Oracle for the fallible steps of a dial: whether
`validator.parse::<SocketAddr>()` succeeds, whether
`endpoint.connect(addr, "solana")` initiation succeeds, and the outcome of
the 0-RTT / handshake phase. -/
structure DialEnv : Type where
  parse_ok : String → Bool
  connect_ok : String → Bool
  dial : String → DialOutcome

/-- The dial section of `get_or_create_connection`, entered right after the
pending sentinel was inserted.  `validator.parse().context(..)?` and
`self.endpoint.connect(addr, "solana")?` propagate their errors with the
sentinel still in the pool; a failed handshake removes the entry before
returning the error; both successful paths insert `Open(conn)`. -/
def get_or_create_dial (env : DialEnv) (pool : Pool) (validator : String) :
    Pool × Except String QuinnConnection :=
  if env.parse_ok validator = false then (pool, .error "Invalid validator address")
  else if env.connect_ok validator = false then (pool, .error "connect error")
  else
    match env.dial validator with
    | .ZeroRtt conn => (poolInsert validator ⟨some conn⟩ pool, .ok conn)
    | .Handshake conn => (poolInsert validator ⟨some conn⟩ pool, .ok conn)
    | .HandshakeFailed e => (poolRemove validator pool, .error e)

/-- `TpuConnectionManager::get_or_create_connection`: return the live cached
connection if any; map a pending sentinel seen by `get_connection` to
`Err("Already connecting")`; otherwise re-check under the write lock for a
pending sentinel, insert one, and dial. -/
def get_or_create_connection (env : DialEnv) (pool : Pool) (validator : String) :
    Pool × Except String QuinnConnection :=
  match get_connection pool validator with
  | .ok (some conn) => (pool, .ok conn)
  | .error _ => (pool, .error "Already connecting")
  | .ok none =>
    match pool.lookup validator with
    | some c =>
      if c.conn = none then (pool, .error "Already connecting")
      else get_or_create_dial env (poolInsert validator ⟨none⟩ pool) validator
    | none => get_or_create_dial env (poolInsert validator ⟨none⟩ pool) validator

/-- A pool holding one cached connection that has been closed by the peer. -/
def c4_pool : Pool := [("10.0.0.1:8001", ⟨some ⟨1, some "timed out"⟩⟩)]

/-- Counterexample to C4 as stated: `get_connection` observes the cached
connection closed (returns `Ok(None)`) yet the entry is NOT removed — the
source's `get_connection` takes `&self` under a read lock and performs no
removal, so the pool after the lookup is the same `c4_pool`, which still
contains the key, unlike the pool the claim requires (the one with the
entry removed). -/
theorem C4_closed_not_removed_counterexample :
    c4_pool.lookup "10.0.0.1:8001" = some ⟨some ⟨1, some "timed out"⟩⟩ ∧
    get_connection c4_pool "10.0.0.1:8001" = .ok none ∧
    c4_pool ≠ poolRemove "10.0.0.1:8001" c4_pool := by
  refine ⟨rfl, rfl, ?_⟩
  decide

/-- C4 (amended): a cached pool connection is live iff it has no
close-reason; a lookup observing a closed connection returns `Ok(None)`
without removing the entry, and the next `get_or_create_connection` for the
socket nonetheless initiates a new dial, overwriting the stale entry with
the pending sentinel and then the freshly opened connection. -/
theorem C4_liveness_amended :
    (∀ (pool : Pool) (validator : String) (c : Connection) (qc : QuinnConnection),
      pool.lookup validator = some c → c.conn = some qc →
      (get_connection pool validator = .ok (some qc) ↔ qc.close_reason = none)) ∧
    (∀ (env : DialEnv) (pool : Pool) (validator : String)
        (c : Connection) (qc conn2 : QuinnConnection),
      pool.lookup validator = some c → c.conn = some qc → qc.close_reason ≠ none →
      env.parse_ok validator = true → env.connect_ok validator = true →
      env.dial validator = .ZeroRtt conn2 →
      get_connection pool validator = .ok none ∧
      get_or_create_connection env pool validator =
        (poolInsert validator ⟨some conn2⟩ (poolInsert validator ⟨none⟩ pool),
          .ok conn2)) := by
  constructor
  · intro pool validator c qc hlk hc
    unfold get_connection
    rw [hlk]
    simp only [hc]
    by_cases hcr : qc.close_reason = none
    · simp [hcr]
    · simp [hcr]
  · intro env pool validator c qc conn2 hlk hc hcr hp hco hd
    have hgc : get_connection pool validator = .ok none := by
      unfold get_connection
      rw [hlk]
      simp only [hc]
      rw [if_neg hcr]
    refine ⟨hgc, ?_⟩
    unfold get_or_create_connection
    rw [hgc]
    simp only [hlk, hc]
    rw [if_neg (by simp : ¬ (some qc = none))]
    unfold get_or_create_dial
    simp [hp, hco, hd]

/-- Witness for C4's amended statement at the concrete closed pool. -/
theorem C4_liveness_amended_witness :
    get_connection c4_pool "10.0.0.1:8001" = .ok none ∧
    get_or_create_connection
        ⟨fun _ => true, fun _ => true, fun _ => .ZeroRtt ⟨2, none⟩⟩
        c4_pool "10.0.0.1:8001" =
      (poolInsert "10.0.0.1:8001" ⟨some ⟨2, none⟩⟩
        (poolInsert "10.0.0.1:8001" ⟨none⟩ c4_pool), .ok ⟨2, none⟩) :=
  C4_liveness_amended.2
    ⟨fun _ => true, fun _ => true, fun _ => .ZeroRtt ⟨2, none⟩⟩
    c4_pool "10.0.0.1:8001" ⟨some ⟨1, some "timed out"⟩⟩ ⟨1, some "timed out"⟩
    ⟨2, none⟩ rfl rfl (by decide) rfl rfl rfl

/-- A dial environment in which the validator string does not parse as a
socket address (`validator.parse::<SocketAddr>()` fails). -/
def c5_env : DialEnv :=
  { parse_ok := fun _ => false, connect_ok := fun _ => true,
    dial := fun _ => .HandshakeFailed "h" }

/-- A dial environment in which only the final handshake fails. -/
def c5_env_handshake : DialEnv :=
  { parse_ok := fun _ => true, connect_ok := fun _ => true,
    dial := fun _ => .HandshakeFailed "handshake error" }

/-- C5 (code evaluated at the failing input): on an unparseable validator
address, `get_or_create_connection` returns the parse error while the
pending sentinel inserted by this very call is still in the pool, so the
next call for the same key fails with `Already connecting` forever; by
contrast the handshake-failure path does remove the entry.  This contradicts
the claim that every failure path removes the entry before returning. -/
theorem C5_stale_sentinel_on_parse_error :
    get_or_create_connection c5_env [] "bad-addr" =
      ([("bad-addr", ⟨none⟩)], .error "Invalid validator address") ∧
    get_or_create_connection c5_env [("bad-addr", ⟨none⟩)] "bad-addr" =
      ([("bad-addr", ⟨none⟩)], .error "Already connecting") ∧
    get_or_create_connection c5_env_handshake [] "127.0.0.1:8001" =
      ([], .error "handshake error") := by
  refine ⟨?_, ?_, ?_⟩ <;> rfl

/-! ## Fanout (`manager.rs::send_transaction`) and the session handler
(`session.rs::handle_session`) -/

/-- Per-leader outcome of the fanout loop body of `send_transaction`:
`NoConn` when `get_connection` yielded no live connection (`Ok(None)` or
`Err(..)` — the `if let Ok(Some(conn))` else-branch, which only logs and
continues); `UniFail` / `WriteFail` / `FinishFail` for the stream-stage
errors of `open_uni` / `write_all` / `finish`, each propagated with `?`;
`Success` for a completed unidirectional write. -/
inductive PeerOutcome : Type where
  | NoConn
  | UniFail
  | WriteFail
  | FinishFail
  | Success
  deriving DecidableEq, Repr

/-- The fanout loop of `send_transaction` over the entries of
`get_leaders()`, with the `tx_sent` flag as accumulator; after the loop,
`Err("Failed sending TX")` when nothing was sent. -/
def sendLoop : List PeerOutcome → Bool → Except String Unit
  | [], tx_sent => if tx_sent then .ok () else .error "Failed sending TX"
  | o :: rest, tx_sent =>
    match o with
    | .NoConn => sendLoop rest tx_sent
    | .UniFail => .error "Failed to open uni stream"
    | .WriteFail => .error "Failed to write transaction data"
    | .FinishFail => .error "Failed to finish stream"
    | .Success => sendLoop rest true

/-- `TpuConnectionManager::send_transaction`, reduced to its control flow
over the per-leader outcomes of the fanout loop. -/
def send_transaction (outcomes : List PeerOutcome) : Except String Unit :=
  sendLoop outcomes false

/-- The reply `handle_session` writes on the client bidirectional stream
from the `send_transaction` result: `"OK"` on success,
`"ERROR: " ++ e` on failure (`format!("ERROR: {}", e)`). -/
def sessionReply : Except String Unit → String
  | .ok _ => "OK"
  | .error e => "ERROR: " ++ e

/-- Character-list prefix test. -/
def listPrefixOf : List Char → List Char → Bool
  | [], _ => true
  | _ :: _, [] => false
  | a :: as, b :: bs => a == b && listPrefixOf as bs

/-- "The response starts with `pre`". -/
def strStartsWith (s pre : String) : Bool := listPrefixOf pre.data s.data

lemma listPrefixOf_append (xs l : List Char) : listPrefixOf xs (xs ++ l) = true := by
  induction xs with
  | nil => rfl
  | cons a as ih => simp [listPrefixOf, ih]

lemma startsWith_error_reply (e : String) :
    strStartsWith ("ERROR: " ++ e) "ERROR:" = true ∧
    strStartsWith ("ERROR: " ++ e) "OK" = false := by
  have hd : ("ERROR: " ++ e).data = "ERROR:".data ++ (' ' :: e.data) := by
    show ("ERROR: ".data ++ e.data) = "ERROR:".data ++ (' ' :: e.data)
    rfl
  constructor
  · unfold strStartsWith
    rw [hd]
    exact listPrefixOf_append _ _
  · unfold strStartsWith
    rw [hd]
    rfl

/-- `send_transaction` succeeds iff some peer write succeeded and no peer
hit a stream-stage failure anywhere in the leader list (a stream failure
aborts the loop with `?` even when `tx_sent` is already true). -/
lemma sendLoop_ok_iff : ∀ (outcomes : List PeerOutcome) (tx_sent : Bool),
    sendLoop outcomes tx_sent = .ok () ↔
      ((tx_sent = true ∨ PeerOutcome.Success ∈ outcomes) ∧
        ∀ o ∈ outcomes, o = PeerOutcome.NoConn ∨ o = PeerOutcome.Success) := by
  intro outcomes
  induction outcomes with
  | nil =>
    intro b
    cases b <;> simp [sendLoop]
  | cons o rest ih =>
    intro b
    cases o <;> simp [sendLoop, ih]

/-- C1 counterexample: with two leaders where the first accepts the
unidirectional write and the second fails at stream-open, the claim says
the client still sees `OK`; the code propagates the `open_uni` error with
`?`, so the reply starts with `ERROR:`. -/
theorem C1_partial_failure_counterexample :
    PeerOutcome.Success ∈ [PeerOutcome.Success, PeerOutcome.UniFail] ∧
    send_transaction [PeerOutcome.Success, PeerOutcome.UniFail] =
      .error "Failed to open uni stream" ∧
    strStartsWith
      (sessionReply (send_transaction [PeerOutcome.Success, PeerOutcome.UniFail]))
      "ERROR:" = true ∧
    strStartsWith
      (sessionReply (send_transaction [PeerOutcome.Success, PeerOutcome.UniFail]))
      "OK" = false := by
  refine ⟨by decide, rfl, by decide, by decide⟩

/-- C1 (amended): the client reply starts with `OK` iff at least one peer
write succeeded AND no peer failed at the stream stage
(open-uni/write/finish); otherwise it starts with `ERROR:`.  Only
connection-unavailability is tolerated per peer; a stream-stage failure on
any peer yields `ERROR:` even when another peer already accepted the
write. -/
theorem C1_fanout_reply_amended :
    ∀ outcomes : List PeerOutcome,
      (strStartsWith (sessionReply (send_transaction outcomes)) "OK" = true ↔
        (PeerOutcome.Success ∈ outcomes ∧
          ∀ o ∈ outcomes, o = PeerOutcome.NoConn ∨ o = PeerOutcome.Success)) ∧
      (strStartsWith (sessionReply (send_transaction outcomes)) "ERROR:" = true ↔
        ¬ (PeerOutcome.Success ∈ outcomes ∧
          ∀ o ∈ outcomes, o = PeerOutcome.NoConn ∨ o = PeerOutcome.Success)) := by
  intro outcomes
  have hiff := sendLoop_ok_iff outcomes false
  simp only [Bool.false_eq_true, false_or] at hiff
  unfold send_transaction
  by_cases hP : PeerOutcome.Success ∈ outcomes ∧
      ∀ o ∈ outcomes, o = PeerOutcome.NoConn ∨ o = PeerOutcome.Success
  · have hok : sendLoop outcomes false = .ok () := hiff.mpr hP
    rw [hok]
    constructor
    · exact ⟨fun _ => hP, fun _ => by decide⟩
    · exact ⟨fun h => absurd h (by decide), fun h => absurd hP h⟩
  · cases hs : sendLoop outcomes false with
    | ok u =>
      cases u
      exact absurd (hiff.mp hs) hP
    | error e =>
      have hrep := startsWith_error_reply e
      constructor
      · constructor
        · intro h
          have h2 : strStartsWith ("ERROR: " ++ e) "OK" = true := h
          rw [hrep.2] at h2
          exact absurd h2 (by simp)
        · intro h
          exact absurd h hP
      · exact ⟨fun _ => hP,
          fun _ => show strStartsWith ("ERROR: " ++ e) "ERROR:" = true from hrep.1⟩

/-- Result of handling one bidirectional client stream inside
`handle_session`'s accept loop: either the whole `handle_session` returns
`Err` (the `?` operator — the loop is abandoned, the session is over and
nothing is written back), or a reply is written on the client stream and
the loop continues with the next stream. -/
inductive StreamOutcome : Type where
  | sessionError : String → StreamOutcome
  | reply : String → StreamOutcome
  deriving DecidableEq, Repr

/-- One iteration of `handle_session`'s loop over a payload of `payload`
bytes: `recv.read_to_end(MAX_TRANSACTION_SIZE)` errors on an oversized
payload and the error propagates with `?`; then
`bincode::deserialize::<Transaction>(&tx_data)` (oracle `deser`) propagates
its error with `?`; only after both succeed is the blob forwarded via
`send_transaction` (oracle `send`) and the `OK`/`ERROR:` reply written.
The second component records whether `send_transaction` was invoked, i.e.
whether the blob was forwarded. -/
def handle_stream (max_transaction_size : Nat) (payload : List Nat)
    (deser : List Nat → Except String Unit)
    (send : List Nat → Except String Unit) : StreamOutcome × Bool :=
  if max_transaction_size < payload.length then
    (.sessionError "Failed to read transaction", false)
  else
    match deser payload with
    | .error _ => (.sessionError "Failed to deserialize transaction", false)
    | .ok _ => (.reply (sessionReply (send payload)), true)

/-- C2 counterexample: a payload that fails bincode deserialization makes
`handle_session` return `Err` — no response on the client stream, the
session ends, and the blob is NOT forwarded (`send_transaction` not
invoked), contradicting both the reply-and-continue part and the
"reference behaviour forwards regardless" part of the claim; an oversized
payload likewise aborts the session. -/
theorem C2_deser_failure_counterexample :
    handle_stream 1232 [0, 1, 2] (fun _ => .error "invalid") (fun _ => .ok ()) =
      (.sessionError "Failed to deserialize transaction", false) ∧
    handle_stream 2 [0, 0, 0] (fun _ => .ok ()) (fun _ => .ok ()) =
      (.sessionError "Failed to read transaction", false) :=
  ⟨rfl, rfl⟩

/-- C2 (amended): an oversized payload or a deserialization failure makes
`handle_session` return the error — no reply is written on that client
stream, the session does not continue, and the opaque blob is not
forwarded; only when the payload fits and deserializes is it forwarded and
an `OK`/`ERROR:` reply written on the same stream. -/
theorem C2_session_aborts_amended :
    ∀ (cap : Nat) (payload : List Nat) (deser send : List Nat → Except String Unit),
      (cap < payload.length →
        handle_stream cap payload deser send =
          (.sessionError "Failed to read transaction", false)) ∧
      (∀ e, payload.length ≤ cap → deser payload = .error e →
        handle_stream cap payload deser send =
          (.sessionError "Failed to deserialize transaction", false)) ∧
      (∀ u, payload.length ≤ cap → deser payload = .ok u →
        handle_stream cap payload deser send =
          (.reply (sessionReply (send payload)), true)) := by
  intro cap payload deser send
  refine ⟨?_, ?_, ?_⟩
  · intro h
    unfold handle_stream
    rw [if_pos h]
  · intro e hle hd
    unfold handle_stream
    rw [if_neg (by omega), hd]
  · intro u hle hd
    unfold handle_stream
    rw [if_neg (by omega), hd]

/-- Witness for C2's amended statement at concrete inputs. -/
theorem C2_session_aborts_amended_witness :
    (2 : Nat) < ([0, 0, 0] : List Nat).length ∧
    handle_stream 2 [0, 0, 0] (fun _ => .ok ()) (fun _ => .ok ()) =
      (.sessionError "Failed to read transaction", false) :=
  ⟨by decide,
    (C2_session_aborts_amended 2 [0, 0, 0] (fun _ => .ok ()) (fun _ => .ok ())).1
      (by decide)⟩

end Bifrost
